import Mathlib

/-!
# A model of `src/server/processLauncher.ts`

This file gives a shallow embedding of the process launcher: the shutdown
coordination inside `launchProcess` (`gracefullyClose`, `killProcess`,
`killAndWait`, the child `exit` observer and the asynchronous temp-directory
cleanup) and the standalone `waitForLine` utility.

The launcher runs on a single-threaded event loop: the child process runs
concurrently, but the launcher only observes it through serialized callbacks.
We therefore model the coordinator as a deterministic step function over a
configuration, driven by an arbitrary schedule of events (a `List Ev`).
Each event is an atomic turn of the event loop: an invocation of
`gracefullyClose` or `kill` running synchronously up to its first `await`,
the child's `exit` callback, the settlement of the caller-supplied
`attemptToGracefullyClose` promise, the completion of the asynchronous
cleanup, or the resumption of a suspended `await` once the awaited promise
has been fulfilled.  An event whose guard does not hold (for example the
resumption of an `await` whose promise is still pending) is a no-op, so
every list of events denotes a possible execution.
-/

namespace ProcessLauncher

/-- A logging channel (`Log` in the source): a name and an optional severity. -/
structure LogChannel where
  name : String
  severity : Option String := none
deriving DecidableEq, Repr

/-- `browserLog` from the source. -/
def browserLog : LogChannel := { name := "browser" }

/-- `browserStdOutLog` from the source. -/
def browserStdOutLog : LogChannel := { name := "browser:out" }

/-- `browserStdErrLog` from the source: warning severity. -/
def browserStdErrLog : LogChannel := { name := "browser:err", severity := some "warning" }

/-- One entry of the `stdio` array passed to `childProcess.spawn`. -/
inductive StdioMode
  | ignore
  | pipe
deriving DecidableEq, Repr

/-- The `stdio` array computed in `launchProcess`:
`options.pipe ? ['ignore', 'pipe', 'pipe', 'pipe', 'pipe'] : ['ignore', 'pipe', 'pipe']`. -/
def stdioFor (pipe : Bool) : List StdioMode :=
  if pipe then
    [StdioMode.ignore, StdioMode.pipe, StdioMode.pipe, StdioMode.pipe, StdioMode.pipe]
  else
    [StdioMode.ignore, StdioMode.pipe, StdioMode.pipe]

/-- A line-oriented reader attached to one of the child's output streams,
forwarding each line to a logging channel. -/
structure ReaderAttachment where
  channel : LogChannel
deriving DecidableEq, Repr

/-- The readers attached by `launchProcess` right after a successful spawn:
a `readline` interface on `spawnedProcess.stdout` logging to `browser:out`
and one on `spawnedProcess.stderr` logging to `browser:err`.  In the source
this attachment is unconditional (it does not consult `options.pipe`). -/
def attachedReaders : List ReaderAttachment :=
  [{ channel := browserStdOutLog }, { channel := browserStdErrLog }]

/-- The observable wiring `launchProcess` performs for a given `options.pipe`
flag: the `stdio` array for the spawn, and the stream readers attached. -/
def launchWiring (pipe : Bool) : List StdioMode × List ReaderAttachment :=
  (stdioFor pipe, attachedReaders)

/-- The kind of a pending asynchronous call into the coordinator:
a first (non-reentrant) `gracefullyClose` call, a reentrant
`gracefullyClose` call, or a `kill` (`killAndWait`) call. -/
inductive TaskKind
  | first
  | reentrant
  | killWait
deriving DecidableEq, Repr

/-- The suspension point a pending call is currently parked at:
`awaitAttempt` = inside `await options.attemptToGracefullyClose()`,
`awaitClose` = inside `await waitForClose`,
`awaitCleanup` = inside `await waitForCleanup`,
`done` = the call's promise has resolved. -/
inductive TaskPc
  | awaitAttempt
  | awaitClose
  | awaitCleanup
  | done
deriving DecidableEq, Repr

/-- A pending (or finished) call into `gracefullyClose` / `killAndWait`. -/
structure GCTask where
  kind : TaskKind
  pc : TaskPc
deriving DecidableEq, Repr

/-- A record of one call's promise resolving: which task, its kind, and the
values of `processClosed` and of the cleanup-complete flag at the moment of
resolution. -/
structure Res where
  taskId : Nat
  kind : TaskKind
  closedAtRes : Bool
  cleanupAtRes : Bool
deriving DecidableEq, Repr

/-- The environment of a launch: the immutable `options.tempDirectories`,
together with a model of the failure behaviour of the outside world —
which directories fail to be removed (`rimraf` raising), and whether the
forceful kill signal raises (e.g. the process died in a race). -/
structure LaunchEnv where
  tempDirectories : List String
  failingDirs : List String
  killThrows : Bool
deriving DecidableEq, Repr

/-- The mutable state of one launch, as captured by the closures inside
`launchProcess`:

* `pid`, `killed` — `spawnedProcess.pid` and `spawnedProcess.killed`
  (nothing in this file ever sets `killed`; the source kills via
  `process.kill(-pid)` / `taskkill`, not `spawnedProcess.kill()`);
* `processClosed`, `gracefullyClosing` — the two `let` flags;
* `listenersRemoved` — whether `helper.removeEventListeners(listeners)` has
  run (listener removal is idempotent);
* `closeSettled` / `cleanupSettled` — whether `fulfillClose` /
  `fulfillCleanup` have been called;
* `cleanupStarted` — whether the exit observer has started
  `cleanup().then(fulfillCleanup)`;
* `exitFired` — whether the `once('exit')` observer has been consumed;
* `onExitCalls` — every invocation of `options.onExit`, with its arguments
  and the value of `listenersRemoved` at the moment of the call;
* `attemptCalls` — how many times `options.attemptToGracefullyClose` was
  invoked;
* `killSignalsSent` — how many times the forceful termination signal was
  issued (`process.kill(-pid, 'SIGKILL')` / `taskkill`);
* `syncAttempts` / `asyncAttempts` — directories on which a removal was
  attempted on the synchronous (`removeFolder.sync` in `killProcess`) and
  asynchronous (`removeFolderAsync` in `cleanup`) paths;
* `removedDirs` — directories actually removed so far;
* `tasks` — the pending calls, indexed by position;
* `resolutions` — the record of promise resolutions. -/
structure Cfg where
  pid : Nat
  killed : Bool
  processClosed : Bool
  listenersRemoved : Bool
  gracefullyClosing : Bool
  closeSettled : Bool
  cleanupStarted : Bool
  cleanupSettled : Bool
  exitFired : Bool
  onExitCalls : List (Option Int × Option String × Bool)
  attemptCalls : Nat
  killSignalsSent : Nat
  syncAttempts : List String
  asyncAttempts : List String
  removedDirs : List String
  tasks : List GCTask
  resolutions : List Res
deriving DecidableEq, Repr

/-- The state right after a successful spawn in `launchProcess` (`pid` is
the nonzero process id; all flags are false, nothing has happened yet). -/
def cfg0 (pid : Nat) : Cfg :=
  { pid := pid, killed := false, processClosed := false, listenersRemoved := false,
    gracefullyClosing := false, closeSettled := false, cleanupStarted := false,
    cleanupSettled := false, exitFired := false, onExitCalls := [], attemptCalls := 0,
    killSignalsSent := 0, syncAttempts := [], asyncAttempts := [], removedDirs := [],
    tasks := [], resolutions := [] }

/-- One `rimraf` call on directory `dir`, given the set of directories already
removed.  Removing an already-removed directory is a successful no-op
(rimraf is idempotent); otherwise the call fails exactly when the
environment says this directory's removal fails. -/
def removeFolderOnce (env : LaunchEnv) (removed : List String) (dir : String) :
    Except Unit (List String) :=
  if dir ∈ removed then Except.ok removed
  else if dir ∈ env.failingDirs then Except.error ()
  else Except.ok (dir :: removed)

/-- The `for (const dir of options.tempDirectories) removeFolder.sync(dir)`
loop in `killProcess`.  The whole loop sits inside a single `try { } catch`,
so the first raising removal aborts the remaining iterations.  Returns the
new removed set, the list of directories on which removal was attempted,
and whether the loop raised. -/
def syncRemoveLoop (env : LaunchEnv) (removed : List String) :
    List String → List String × List String × Bool
  | [] => (removed, [], false)
  | d :: ds =>
    match removeFolderOnce env removed d with
    | Except.error _ => (removed, [d], true)
    | Except.ok removed1 =>
      let r := syncRemoveLoop env removed1 ds
      (r.1, d :: r.2.1, r.2.2)

/-- One arm of the asynchronous `cleanup`:
`removeFolderAsync(dir).catch(err => console.error(err))` — the removal is
attempted and a failure is caught individually. -/
def asyncRemoveStep (env : LaunchEnv) (rem : List String) (d : String) : List String :=
  match removeFolderOnce env rem d with
  | Except.ok rem1 => rem1
  | Except.error _ => rem

/-- The asynchronous `cleanup` function:
`Promise.all(tempDirectories.map(dir => removeFolderAsync(dir).catch(...)))`.
Every directory's removal is attempted and each error is caught
individually, so one failing directory does not suppress the others.
Returns the new removed set and the list of attempted directories. -/
def asyncRemoveAll (env : LaunchEnv) (removed : List String) : List String × List String :=
  (env.tempDirectories.foldl (asyncRemoveStep env) removed, env.tempDirectories)

/-- The platform kill call in `killProcess`
(`process.kill(-pid, 'SIGKILL')` or `taskkill ... /F`), which may raise if
the process already stopped. -/
def sendKillSignal (env : LaunchEnv) : Except Unit Unit :=
  if env.killThrows then Except.error () else Except.ok ()

/-- The synchronous `killProcess` function from the source:
remove all listeners; if the process is believed alive
(`spawnedProcess.pid && !spawnedProcess.killed && !processClosed`) issue the
forceful termination signal, swallowing any error; then attempt the
synchronous temp-directory removals, swallowing any error from the loop. -/
def killProcessFn (env : LaunchEnv) (c : Cfg) : Cfg :=
  let c1 := { c with listenersRemoved := true }
  let c2 :=
    if c1.pid ≠ 0 ∧ c1.killed = false ∧ c1.processClosed = false then
      match sendKillSignal env with
      | Except.ok _ => { c1 with killSignalsSent := c1.killSignalsSent + 1 }
      | Except.error _ => { c1 with killSignalsSent := c1.killSignalsSent + 1 }
    else c1
  let r := syncRemoveLoop env c2.removedDirs env.tempDirectories
  { c2 with removedDirs := r.1, syncAttempts := c2.syncAttempts ++ r.2.1 }

/-- The `spawnedProcess.once('exit', ...)` observer body: set
`processClosed`, remove all registered listeners, invoke `options.onExit`
with the exit code and signal, fulfill the close promise, and start the
asynchronous cleanup (whose completion will fulfill the cleanup promise). -/
def onChildExit (code : Option Int) (sig : Option String) (c : Cfg) : Cfg :=
  let c1 := { c with exitFired := true, processClosed := true }
  let c2 := { c1 with listenersRemoved := true }
  let c3 := { c2 with onExitCalls := c2.onExitCalls ++ [(code, sig, c2.listenersRemoved)] }
  let c4 := { c3 with closeSettled := true }
  { c4 with cleanupStarted := true }

/-- One atomic turn of the event loop. -/
inductive Ev
  | callGraceful
  | callKill
  | childExit (code : Option Int) (sig : Option String)
  | attemptSettle (i : Nat) (ok : Bool)
  | cleanupDone
  | resolveTask (i : Nat)
deriving DecidableEq, Repr

/-- The coordinator's step function.

* `callGraceful` — an invocation of `gracefullyClose`, run synchronously up
  to its first `await`.  If `gracefullyClosing` is already set the call
  runs `killProcess()` and parks at `await waitForClose`; otherwise it sets
  the flag, invokes `options.attemptToGracefullyClose()` and parks awaiting
  that promise.
* `callKill` — an invocation of `killAndWait`: run `killProcess()`
  synchronously and park at the returned `waitForCleanup`.
* `childExit` — the child's `exit` event; a `once` listener, so a no-op if
  it already fired.
* `attemptSettle i ok` — the promise returned by
  `options.attemptToGracefullyClose()` settles for the first-call task `i`.
  On rejection (`ok = false`) the `.catch(() => killProcess())` runs; in
  both cases the call then parks at `await waitForCleanup`.
* `cleanupDone` — the asynchronous `cleanup()` started by the exit observer
  completes and `fulfillCleanup` runs.
* `resolveTask i` — the event loop resumes suspended call `i`; enabled only
  once the promise it awaits has been fulfilled, and records the resolution. -/
def step (env : LaunchEnv) (e : Ev) (c : Cfg) : Cfg :=
  match e with
  | Ev.callGraceful =>
    if c.gracefullyClosing then
      let c1 := killProcessFn env c
      { c1 with tasks := c1.tasks ++ [{ kind := TaskKind.reentrant, pc := TaskPc.awaitClose }] }
    else
      let c1 := { c with gracefullyClosing := true, attemptCalls := c.attemptCalls + 1 }
      { c1 with tasks := c1.tasks ++ [{ kind := TaskKind.first, pc := TaskPc.awaitAttempt }] }
  | Ev.callKill =>
    let c1 := killProcessFn env c
    { c1 with tasks := c1.tasks ++ [{ kind := TaskKind.killWait, pc := TaskPc.awaitCleanup }] }
  | Ev.childExit code sig =>
    if c.exitFired then c else onChildExit code sig c
  | Ev.attemptSettle i ok =>
    match c.tasks[i]? with
    | some t =>
      if t.kind = TaskKind.first ∧ t.pc = TaskPc.awaitAttempt then
        let c1 := if ok then c else killProcessFn env c
        { c1 with tasks := c1.tasks.set i { kind := t.kind, pc := TaskPc.awaitCleanup } }
      else c
    | none => c
  | Ev.cleanupDone =>
    if c.cleanupStarted ∧ c.cleanupSettled = false then
      let r := asyncRemoveAll env c.removedDirs
      { c with removedDirs := r.1, asyncAttempts := c.asyncAttempts ++ r.2,
               cleanupSettled := true }
    else c
  | Ev.resolveTask i =>
    match c.tasks[i]? with
    | some t =>
      if (t.pc = TaskPc.awaitClose ∧ c.closeSettled) ∨
         (t.pc = TaskPc.awaitCleanup ∧ c.cleanupSettled) then
        { c with tasks := c.tasks.set i { kind := t.kind, pc := TaskPc.done },
                 resolutions := c.resolutions ++
                   [{ taskId := i, kind := t.kind, closedAtRes := c.processClosed,
                      cleanupAtRes := c.cleanupSettled }] }
      else c
    | none => c

/-- Run a schedule of events. -/
def run (env : LaunchEnv) (es : List Ev) (c : Cfg) : Cfg :=
  es.foldl (fun c e => step env e c) c

/-!
## The observable part of a configuration

Everything except the directory-removal bookkeeping (`syncAttempts`,
`asyncAttempts`, `removedDirs`).  The step function's effect on these
fields depends only on these fields and the event — in particular not on
the environment — which is how we prove that removal failures and kill
failures are swallowed and never influence control flow.
-/

/-- The observable fields of a `Cfg`. -/
structure Obs where
  pid : Nat
  killed : Bool
  processClosed : Bool
  listenersRemoved : Bool
  gracefullyClosing : Bool
  closeSettled : Bool
  cleanupStarted : Bool
  cleanupSettled : Bool
  exitFired : Bool
  onExitCalls : List (Option Int × Option String × Bool)
  attemptCalls : Nat
  killSignalsSent : Nat
  tasks : List GCTask
  resolutions : List Res
deriving DecidableEq, Repr

/-- Project a configuration onto its observable fields. -/
def obs (c : Cfg) : Obs :=
  { pid := c.pid, killed := c.killed, processClosed := c.processClosed,
    listenersRemoved := c.listenersRemoved, gracefullyClosing := c.gracefullyClosing,
    closeSettled := c.closeSettled, cleanupStarted := c.cleanupStarted,
    cleanupSettled := c.cleanupSettled, exitFired := c.exitFired,
    onExitCalls := c.onExitCalls, attemptCalls := c.attemptCalls,
    killSignalsSent := c.killSignalsSent, tasks := c.tasks, resolutions := c.resolutions }

/-- `killProcessFn` on observables. -/
def killObs (o : Obs) : Obs :=
  if o.pid ≠ 0 ∧ o.killed = false ∧ o.processClosed = false then
    { o with listenersRemoved := true, killSignalsSent := o.killSignalsSent + 1 }
  else { o with listenersRemoved := true }

/-- `onChildExit` on observables. -/
def onChildExitObs (code : Option Int) (sig : Option String) (o : Obs) : Obs :=
  let o1 := { o with exitFired := true, processClosed := true }
  let o2 := { o1 with listenersRemoved := true }
  let o3 := { o2 with onExitCalls := o2.onExitCalls ++ [(code, sig, o2.listenersRemoved)] }
  let o4 := { o3 with closeSettled := true }
  { o4 with cleanupStarted := true }

/-- `step` on observables. -/
def stepObs (e : Ev) (o : Obs) : Obs :=
  match e with
  | Ev.callGraceful =>
    if o.gracefullyClosing then
      let o1 := killObs o
      { o1 with tasks := o1.tasks ++ [{ kind := TaskKind.reentrant, pc := TaskPc.awaitClose }] }
    else
      let o1 := { o with gracefullyClosing := true, attemptCalls := o.attemptCalls + 1 }
      { o1 with tasks := o1.tasks ++ [{ kind := TaskKind.first, pc := TaskPc.awaitAttempt }] }
  | Ev.callKill =>
    let o1 := killObs o
    { o1 with tasks := o1.tasks ++ [{ kind := TaskKind.killWait, pc := TaskPc.awaitCleanup }] }
  | Ev.childExit code sig =>
    if o.exitFired then o else onChildExitObs code sig o
  | Ev.attemptSettle i ok =>
    match o.tasks[i]? with
    | some t =>
      if t.kind = TaskKind.first ∧ t.pc = TaskPc.awaitAttempt then
        let o1 := if ok then o else killObs o
        { o1 with tasks := o1.tasks.set i { kind := t.kind, pc := TaskPc.awaitCleanup } }
      else o
    | none => o
  | Ev.cleanupDone =>
    if o.cleanupStarted ∧ o.cleanupSettled = false then
      { o with cleanupSettled := true }
    else o
  | Ev.resolveTask i =>
    match o.tasks[i]? with
    | some t =>
      if (t.pc = TaskPc.awaitClose ∧ o.closeSettled) ∨
         (t.pc = TaskPc.awaitCleanup ∧ o.cleanupSettled) then
        { o with tasks := o.tasks.set i { kind := t.kind, pc := TaskPc.done },
                 resolutions := o.resolutions ++
                   [{ taskId := i, kind := t.kind, closedAtRes := o.processClosed,
                      cleanupAtRes := o.cleanupSettled }] }
      else o
    | none => o

/-- `run` on observables. -/
def runObs (es : List Ev) (o : Obs) : Obs :=
  es.foldl (fun o e => stepObs e o) o

/-- The inductive invariant of the coordinator:
* `fulfillClose` / the start of the async cleanup happen only inside the exit
  observer, so either flag implies `processClosed`;
* `fulfillCleanup` only runs once the exit observer started the cleanup;
* `attemptToGracefullyClose` is invoked exactly when the `gracefullyClosing`
  latch is set, hence at most once per launch;
* only reentrant `gracefullyClose` calls park at `await waitForClose`;
* every recorded resolution happened after the child terminated, and
  resolutions of non-reentrant calls also after the cleanup completed. -/
structure ObsInv (o : Obs) : Prop where
  close_closed : o.closeSettled = true → o.processClosed = true
  started_closed : o.cleanupStarted = true → o.processClosed = true
  settled_started : o.cleanupSettled = true → o.cleanupStarted = true
  attempt_flag : o.attemptCalls = (if o.gracefullyClosing then 1 else 0)
  close_kind : ∀ t ∈ o.tasks, t.pc = TaskPc.awaitClose → t.kind = TaskKind.reentrant
  res_ok : ∀ r ∈ o.resolutions, r.closedAtRes = true ∧
    (r.kind ≠ TaskKind.reentrant → r.cleanupAtRes = true)

/-- The first `childExit` event of a schedule, with its payload. -/
def firstExit : List Ev → Option (Option Int × Option String)
  | [] => none
  | Ev.childExit code sig :: _ => some (code, sig)
  | Ev.callGraceful :: es => firstExit es
  | Ev.callKill :: es => firstExit es
  | Ev.attemptSettle _ _ :: es => firstExit es
  | Ev.cleanupDone :: es => firstExit es
  | Ev.resolveTask _ :: es => firstExit es

/-!
## `waitForLine`

`waitForLine(process, inputStream, regex, timeout, timeoutError)` attaches a
`readline` interface to the stream and races the events
`'line'`, `'close'` (on the reader), `'exit'`, `'error'` (on the process)
and a timer.  We model the regex as an abstract matcher
`pat : String → Option μ` (`line.match(regex)` returning its match object),
and the promise as the `settled` field of the state.
-/

/-- The outcome of a `waitForLine` promise. -/
inductive WRes (μ : Type)
  | resolved (m : μ)
  | rejected (msg : String)
  | timedOut
deriving DecidableEq, Repr

/-- The state of one `waitForLine` call: the promise, the accumulated
diagnostic buffer (the `stderr` variable: every line seen so far, each
followed by a newline), whether the four event listeners are still attached,
and whether the timer is still pending. -/
structure WState (μ : Type) where
  settled : Option (WRes μ)
  buf : String
  listenersActive : Bool
  timerActive : Bool
deriving DecidableEq, Repr

/-- The state right after `waitForLine` sets up: promise pending, empty
buffer, listeners attached, timer pending iff a nonzero timeout was given
(`timeout ? setTimeout(onTimeout, timeout) : 0`). -/
def winit (μ : Type) (hasTimeout : Bool) : WState μ :=
  { settled := none, buf := "", listenersActive := true, timerActive := hasTimeout }

/-- The troubleshooting line embedded in the failure message. -/
def troubleshootingLine : String :=
  "TROUBLESHOOTING: https://github.com/Microsoft/playwright/blob/master/docs/troubleshooting.md"

/-- The first line of the failure message:
`'Failed to launch browser!' + (error ? ' ' + error.message : '')`. -/
def headerFor (err : Option String) : String :=
  "Failed to launch browser!" ++ (match err with | some m => " " ++ m | none => "")

/-- The message built in `onClose`:
`['Failed to launch browser!' + (error ? ' ' + error.message : ''), stderr,
'', 'TROUBLESHOOTING: ...', ''].join('\n')`. -/
def closeMessage (err : Option String) (buf : String) : String :=
  headerFor err ++ "\n" ++ buf ++ "\n" ++ "" ++ "\n" ++ troubleshootingLine ++ "\n" ++ ""

/-- The `cleanup` closure: cancel the pending timer (if any) and remove all
four event listeners. -/
def cleanupW {μ : Type} (s : WState μ) : WState μ :=
  { s with listenersActive := false, timerActive := false }

/-- The `onLine` handler: append the line (plus a newline) to the buffer;
if the line does not match, keep waiting; otherwise run `cleanup` and
resolve with the match. -/
def onLineW {μ : Type} (pat : String → Option μ) (l : String) (s : WState μ) : WState μ :=
  let s1 := { s with buf := s.buf ++ l ++ "\n" }
  match pat l with
  | none => s1
  | some m => { cleanupW s1 with settled := some (WRes.resolved m) }

/-- The `onClose` handler (shared by the reader's `'close'`, the process's
`'exit'` and, with the error, the process's `'error'` events): run `cleanup`
and reject with the diagnostic message. -/
def onCloseW {μ : Type} (err : Option String) (s : WState μ) : WState μ :=
  { cleanupW s with settled := some (WRes.rejected (closeMessage err s.buf)) }

/-- The `onTimeout` handler: run `cleanup` and reject with the supplied
timeout error. -/
def onTimeoutW {μ : Type} (s : WState μ) : WState μ :=
  { cleanupW s with settled := some WRes.timedOut }

/-- The events a `waitForLine` call can receive. -/
inductive WEv
  | line (l : String)
  | closeEv
  | exitEv
  | errorEv (m : String)
  | timeoutEv
deriving DecidableEq, Repr

/-- One event delivery.  The four listener-driven handlers only run while
the listeners are attached (`helper.removeEventListeners` in `cleanup`
detaches them); the timeout only fires while the timer is pending
(`clearTimeout` in `cleanup` cancels it). -/
def wstep {μ : Type} (pat : String → Option μ) (e : WEv) (s : WState μ) : WState μ :=
  match e with
  | WEv.line l => if s.listenersActive then onLineW pat l s else s
  | WEv.closeEv => if s.listenersActive then onCloseW none s else s
  | WEv.exitEv => if s.listenersActive then onCloseW none s else s
  | WEv.errorEv m => if s.listenersActive then onCloseW (some m) s else s
  | WEv.timeoutEv => if s.timerActive then onTimeoutW s else s

/-- Run a schedule of events through one `waitForLine` call. -/
def wrun {μ : Type} (pat : String → Option μ) (es : List WEv) (s : WState μ) : WState μ :=
  es.foldl (fun s e => wstep pat e s) s

/-- The character contents of the diagnostic buffer after a list of lines:
each line followed by a newline. -/
def linesData : List String → List Char
  | [] => []
  | l :: ls => l.data ++ '\n' :: linesData ls

/-- The diagnostic buffer after a list of lines, as a string. -/
def renderLines (ls : List String) : String :=
  String.mk (linesData ls)

/-!
## Substring containment for the diagnostic message
-/

/-- `small` occurs contiguously inside `big`. -/
def containsSeg (small big : List Char) : Prop :=
  ∃ u v, big = u ++ (small ++ v)

/-- A launch environment in which nothing fails and there are no temp
directories: used to exercise the model on concrete schedules. -/
def quietEnv : LaunchEnv :=
  { tempDirectories := [], failingDirs := [], killThrows := false }

/-- A launch environment with two temp directories of which the first fails
to be removed. -/
def abEnv : LaunchEnv :=
  { tempDirectories := ["a", "b"], failingDirs := ["a"], killThrows := false }

/-- A concrete readiness matcher: matches the line announcing a listening
address, returning the line as the match object. -/
def patListen : String → Option String :=
  fun l => if l = "Listening on 127.0.0.1:9222" then some l else none

/-- A concrete configuration in the `GracefullyClosing` state. -/
def gcCfg : Cfg := { cfg0 7 with gracefullyClosing := true }

/-- A concrete configuration whose child has already exited. -/
def closedCfg : Cfg := { cfg0 7 with processClosed := true }

/-- A concrete configuration whose child has exited and whose exit-triggered
cleanup has completed. -/
def doneCfg : Cfg :=
  { cfg0 7 with
    processClosed := true, closeSettled := true, cleanupStarted := true,
    cleanupSettled := true }

/-- A concrete configuration with one first `gracefullyClose` call awaiting
its graceful attempt. -/
def attemptCfg : Cfg :=
  { cfg0 7 with
    gracefullyClosing := true,
    tasks := [{ kind := TaskKind.first, pc := TaskPc.awaitAttempt }] }

/-- A concrete configuration whose exit observer has started the
asynchronous cleanup. -/
def startedCfg : Cfg :=
  { cfg0 7 with
    processClosed := true, closeSettled := true, cleanupStarted := true }

/-- A launch environment with two temp directories and no failures. -/
def cdEnv : LaunchEnv :=
  { tempDirectories := ["c", "d"], failingDirs := [], killThrows := false }

theorem obs_killProcessFn (env : LaunchEnv) (c : Cfg) :
    obs (killProcessFn env c) = killObs (obs c) := by
  by_cases hp : c.pid ≠ 0 ∧ c.killed = false ∧ c.processClosed = false <;>
    cases hk : env.killThrows <;>
    simp [obs, killProcessFn, killObs, sendKillSignal, hp, hk]

theorem obs_onChildExit (code : Option Int) (sig : Option String) (c : Cfg) :
    obs (onChildExit code sig c) = onChildExitObs code sig (obs c) := by
  rfl

theorem obs_withTasks (c : Cfg) (ts : List GCTask) :
    obs { c with tasks := ts } = { obs c with tasks := ts } := rfl

theorem obs_step (env : LaunchEnv) (e : Ev) (c : Cfg) :
    obs (step env e c) = stepObs e (obs c) := by
  cases e with
  | callGraceful =>
    cases hg : c.gracefullyClosing with
    | true =>
      have h1 : step env Ev.callGraceful c =
          { killProcessFn env c with tasks := (killProcessFn env c).tasks ++
              [{ kind := TaskKind.reentrant, pc := TaskPc.awaitClose }] } := by
        simp [step, hg]
      have h2 : stepObs Ev.callGraceful (obs c) =
          { killObs (obs c) with tasks := (killObs (obs c)).tasks ++
              [{ kind := TaskKind.reentrant, pc := TaskPc.awaitClose }] } := by
        have : (obs c).gracefullyClosing = true := hg
        simp [stepObs, this]
      rw [h1, h2, ← obs_killProcessFn env c]
      rfl
    | false =>
      have hg2 : (obs c).gracefullyClosing = false := hg
      simp [step, stepObs, hg, hg2, obs]
  | callKill =>
    have h1 : step env Ev.callKill c =
        { killProcessFn env c with tasks := (killProcessFn env c).tasks ++
            [{ kind := TaskKind.killWait, pc := TaskPc.awaitCleanup }] } := by
      simp [step]
    have h2 : stepObs Ev.callKill (obs c) =
        { killObs (obs c) with tasks := (killObs (obs c)).tasks ++
            [{ kind := TaskKind.killWait, pc := TaskPc.awaitCleanup }] } := by
      simp [stepObs]
    rw [h1, h2, ← obs_killProcessFn env c]
    rfl
  | childExit code sig =>
    cases he : c.exitFired with
    | true =>
      have he2 : (obs c).exitFired = true := he
      simp [step, stepObs, he, he2]
    | false =>
      have he2 : (obs c).exitFired = false := he
      simp [step, stepObs, he, he2, obs, onChildExit, onChildExitObs]
  | attemptSettle i ok =>
    have ht : (obs c).tasks = c.tasks := rfl
    cases hti : c.tasks[i]? with
    | none => simp [step, stepObs, ht, hti, obs]
    | some t =>
      by_cases hk : t.kind = TaskKind.first ∧ t.pc = TaskPc.awaitAttempt
      · cases ok with
        | true => simp [step, stepObs, ht, hti, hk, obs]
        | false =>
          have h1 : step env (Ev.attemptSettle i false) c =
              { killProcessFn env c with tasks := ((killProcessFn env c).tasks.set i
                  { kind := t.kind, pc := TaskPc.awaitCleanup }) } := by
            simp [step, hti, hk]
          have h2 : stepObs (Ev.attemptSettle i false) (obs c) =
              { killObs (obs c) with tasks := ((killObs (obs c)).tasks.set i
                  { kind := t.kind, pc := TaskPc.awaitCleanup }) } := by
            rw [stepObs, ht, hti]
            simp [hk]
          rw [h1, h2, ← obs_killProcessFn env c]
          rfl
      · simp [step, stepObs, ht, hti, hk, obs]
  | cleanupDone =>
    by_cases hc : c.cleanupStarted = true ∧ c.cleanupSettled = false
    · have hc2 : (obs c).cleanupStarted = true ∧ (obs c).cleanupSettled = false := hc
      simp [step, stepObs, hc, hc2, obs]
    · have hc2 : ¬ ((obs c).cleanupStarted = true ∧ (obs c).cleanupSettled = false) := hc
      simp [step, stepObs, hc, hc2, obs]
  | resolveTask i =>
    have ht : (obs c).tasks = c.tasks := rfl
    cases hti : c.tasks[i]? with
    | none => simp [step, stepObs, ht, hti, obs]
    | some t =>
      by_cases hr : (t.pc = TaskPc.awaitClose ∧ c.closeSettled = true) ∨
          (t.pc = TaskPc.awaitCleanup ∧ c.cleanupSettled = true)
      · have hr2 : (t.pc = TaskPc.awaitClose ∧ (obs c).closeSettled = true) ∨
            (t.pc = TaskPc.awaitCleanup ∧ (obs c).cleanupSettled = true) := hr
        simp [step, stepObs, ht, hti, hr, hr2, obs]
      · have hr2 : ¬ ((t.pc = TaskPc.awaitClose ∧ (obs c).closeSettled = true) ∨
            (t.pc = TaskPc.awaitCleanup ∧ (obs c).cleanupSettled = true)) := hr
        simp [step, stepObs, ht, hti, hr, hr2, obs]

theorem obs_run (env : LaunchEnv) (es : List Ev) (c : Cfg) :
    obs (run env es c) = runObs es (obs c) := by
  induction es generalizing c with
  | nil => rfl
  | cons e es ih =>
    show obs (run env es (step env e c)) = runObs es (stepObs e (obs c))
    rw [ih, obs_step]

/-!
## Invariants of the coordinator
-/

theorem killObs_killSignalsSent (o : Obs) :
    (killObs o).killSignalsSent =
      (if o.pid ≠ 0 ∧ o.killed = false ∧ o.processClosed = false
       then o.killSignalsSent + 1 else o.killSignalsSent) := by
  unfold killObs
  split <;> rfl

theorem obsInv_killObs {o : Obs} (h : ObsInv o) : ObsInv (killObs o) := by
  unfold killObs
  split <;>
    exact { close_closed := h.close_closed, started_closed := h.started_closed,
            settled_started := h.settled_started, attempt_flag := h.attempt_flag,
            close_kind := h.close_kind, res_ok := h.res_ok }

theorem obsInv_cfg0 (pid : Nat) : ObsInv (obs (cfg0 pid)) := by
  constructor <;> simp [obs, cfg0]

theorem obsInv_step (e : Ev) {o : Obs} (h : ObsInv o) : ObsInv (stepObs e o) := by
  cases e with
  | callGraceful =>
    cases hg : o.gracefullyClosing with
    | true =>
      have hk := obsInv_killObs h
      simp only [stepObs, hg, if_true]
      refine { close_closed := hk.close_closed, started_closed := hk.started_closed,
               settled_started := hk.settled_started, attempt_flag := hk.attempt_flag,
               close_kind := ?_, res_ok := hk.res_ok }
      intro t ht hpc
      rcases List.mem_append.mp ht with h1 | h1
      · exact hk.close_kind t h1 hpc
      · simp at h1
        rw [h1]
    | false =>
      simp only [stepObs, hg, Bool.false_eq_true, if_false]
      refine { close_closed := h.close_closed, started_closed := h.started_closed,
               settled_started := h.settled_started, attempt_flag := ?_,
               close_kind := ?_, res_ok := h.res_ok }
      · have := h.attempt_flag
        simp [hg] at this
        simp [this]
      · intro t ht hpc
        rcases List.mem_append.mp ht with h1 | h1
        · exact h.close_kind t h1 hpc
        · simp at h1
          rw [h1] at hpc
          exact absurd hpc (by simp)
  | callKill =>
    have hk := obsInv_killObs h
    simp only [stepObs]
    refine { close_closed := hk.close_closed, started_closed := hk.started_closed,
             settled_started := hk.settled_started, attempt_flag := hk.attempt_flag,
             close_kind := ?_, res_ok := hk.res_ok }
    intro t ht hpc
    rcases List.mem_append.mp ht with h1 | h1
    · exact hk.close_kind t h1 hpc
    · simp at h1
      rw [h1] at hpc
      exact absurd hpc (by simp)
  | childExit code sig =>
    cases he : o.exitFired with
    | true => simpa only [stepObs, he, if_true] using h
    | false =>
      simp only [stepObs, he, Bool.false_eq_true, if_false]
      exact { close_closed := fun _ => rfl, started_closed := fun _ => rfl,
              settled_started := fun _ => rfl,
              attempt_flag := h.attempt_flag, close_kind := h.close_kind,
              res_ok := h.res_ok }
  | attemptSettle i ok =>
    simp only [stepObs]
    cases hti : o.tasks[i]? with
    | none => exact h
    | some t =>
      by_cases hcnd : t.kind = TaskKind.first ∧ t.pc = TaskPc.awaitAttempt
      · simp only [hcnd, and_self, if_true]
        have hbase : ObsInv (if ok then o else killObs o) := by
          cases ok with
          | true => simpa using h
          | false => simpa using obsInv_killObs h
        refine { close_closed := hbase.close_closed, started_closed := hbase.started_closed,
                 settled_started := hbase.settled_started, attempt_flag := hbase.attempt_flag,
                 close_kind := ?_, res_ok := hbase.res_ok }
        intro u hu hpc
        rcases List.mem_or_eq_of_mem_set hu with h1 | h1
        · exact hbase.close_kind u h1 hpc
        · rw [h1] at hpc
          exact absurd hpc (by simp)
      · simp only [hcnd, if_false]
        exact h
  | cleanupDone =>
    by_cases hc : o.cleanupStarted = true ∧ o.cleanupSettled = false
    · simp only [stepObs, hc, and_self, if_true]
      exact { close_closed := fun hcs => h.close_closed hcs,
              started_closed := fun _ => h.started_closed hc.1,
              settled_started := fun _ => rfl,
              attempt_flag := h.attempt_flag, close_kind := h.close_kind,
              res_ok := h.res_ok }
    · simp only [stepObs, hc, if_false]
      exact h
  | resolveTask i =>
    simp only [stepObs]
    cases hti : o.tasks[i]? with
    | none => exact h
    | some t =>
      by_cases hcnd : (t.pc = TaskPc.awaitClose ∧ o.closeSettled = true) ∨
          (t.pc = TaskPc.awaitCleanup ∧ o.cleanupSettled = true)
      · simp only [hcnd, if_true]
        refine { close_closed := h.close_closed, started_closed := h.started_closed,
                 settled_started := h.settled_started, attempt_flag := h.attempt_flag,
                 close_kind := ?_, res_ok := ?_ }
        · intro u hu hpc
          rcases List.mem_or_eq_of_mem_set hu with h1 | h1
          · exact h.close_kind u h1 hpc
          · rw [h1] at hpc
            exact absurd hpc (by simp)
        · intro r hr
          rcases List.mem_append.mp hr with h1 | h1
          · exact h.res_ok r h1
          · simp at h1
            rcases hcnd with ⟨hpc, hcs⟩ | ⟨hpc, hcs⟩
            · refine ⟨?_, ?_⟩
              · rw [h1]
                exact h.close_closed hcs
              · intro hkind
                exact absurd (h.close_kind t (List.getElem?_mem hti) hpc)
                  (by rw [h1] at hkind; exact hkind)
            · refine ⟨?_, ?_⟩
              · rw [h1]
                exact h.started_closed (h.settled_started hcs)
              · intro _
                rw [h1]
                exact hcs
      · simp only [hcnd, if_false]
        exact h

theorem obsInv_runObs (es : List Ev) {o : Obs} (h : ObsInv o) : ObsInv (runObs es o) := by
  induction es generalizing o with
  | nil => exact h
  | cons e es ih => exact ih (obsInv_step e h)

theorem obsInv_run (env : LaunchEnv) (es : List Ev) (pid : Nat) :
    ObsInv (obs (run env es (cfg0 pid))) := by
  rw [obs_run]
  exact obsInv_runObs es (obsInv_cfg0 pid)

/-- The observable behaviour of a launch does not depend on the environment:
in particular not on which directory removals fail and not on whether the
forceful kill signal raises.  This is the content of the `try`/`catch`
blocks in `killProcess` and the `.catch` handlers in `cleanup`. -/
theorem run_obs_env_independent (env env' : LaunchEnv) (es : List Ev) (c : Cfg) :
    obs (run env es c) = obs (run env' es c) := by
  rw [obs_run, obs_run]

/-!
## The exit observer fires exactly once
-/

theorem killObs_onExitCalls (o : Obs) : (killObs o).onExitCalls = o.onExitCalls := by
  unfold killObs
  split <;> rfl

theorem killObs_exitFired (o : Obs) : (killObs o).exitFired = o.exitFired := by
  unfold killObs
  split <;> rfl

/-- Outside a first `childExit`, a step never touches `onExitCalls` or
`exitFired`: the exit observer is the only place the exit callback fires. -/
theorem stepObs_onExit_preserved (e : Ev) (o : Obs)
    (h : ∀ code sig, e = Ev.childExit code sig → o.exitFired = true) :
    (stepObs e o).onExitCalls = o.onExitCalls ∧ (stepObs e o).exitFired = o.exitFired := by
  cases e with
  | callGraceful =>
    cases hg : o.gracefullyClosing <;>
      simp [stepObs, hg, killObs_onExitCalls, killObs_exitFired]
  | callKill =>
    simp [stepObs, killObs_onExitCalls, killObs_exitFired]
  | childExit code sig =>
    have := h code sig rfl
    simp [stepObs, this]
  | attemptSettle i ok =>
    cases hti : o.tasks[i]? with
    | none => simp [stepObs, hti]
    | some t =>
      by_cases hc : t.kind = TaskKind.first ∧ t.pc = TaskPc.awaitAttempt
      · cases ok <;> simp [stepObs, hti, hc, killObs_onExitCalls, killObs_exitFired]
      · simp [stepObs, hti, hc]
  | cleanupDone =>
    by_cases hc : o.cleanupStarted = true ∧ o.cleanupSettled = false <;>
      simp [stepObs, hc]
  | resolveTask i =>
    cases hti : o.tasks[i]? with
    | none => simp [stepObs, hti]
    | some t =>
      by_cases hc : (t.pc = TaskPc.awaitClose ∧ o.closeSettled = true) ∨
          (t.pc = TaskPc.awaitCleanup ∧ o.cleanupSettled = true) <;>
        simp [stepObs, hti, hc]

/-- Once the exit observer has fired, no later event changes `onExitCalls`:
the `once` listener is consumed. -/
theorem runObs_onExit_fired (es : List Ev) (o : Obs) (h : o.exitFired = true) :
    (runObs es o).onExitCalls = o.onExitCalls ∧ (runObs es o).exitFired = true := by
  induction es generalizing o with
  | nil => exact ⟨rfl, h⟩
  | cons e es ih =>
    have hp := stepObs_onExit_preserved e o (fun _ _ _ => h)
    have hrec := ih (stepObs e o) (by rw [hp.2, h])
    exact ⟨by rw [show runObs (e :: es) o = runObs es (stepObs e o) from rfl, hrec.1, hp.1],
           by rw [show runObs (e :: es) o = runObs es (stepObs e o) from rfl, hrec.2]⟩

/-- Characterization of the exit callback: over any schedule, `options.onExit`
is invoked exactly once if the child exits (with the exit code and signal of
the first exit event, and with the listeners already removed at the moment of
the call), and never otherwise. -/
theorem runObs_onExit (es : List Ev) (o : Obs) (h : o.exitFired = false) :
    (runObs es o).onExitCalls = o.onExitCalls ++
      (match firstExit es with
       | some (code, sig) => [(code, sig, true)]
       | none => []) := by
  induction es generalizing o with
  | nil => simp [runObs, firstExit]
  | cons e es ih =>
    cases e with
    | childExit code sig =>
      show (runObs es (stepObs (Ev.childExit code sig) o)).onExitCalls = _
      have hstep : stepObs (Ev.childExit code sig) o = onChildExitObs code sig o := by
        simp [stepObs, h]
      rw [hstep]
      have hfired : (onChildExitObs code sig o).exitFired = true := rfl
      rw [(runObs_onExit_fired es _ hfired).1]
      rfl
    | callGraceful =>
      have hp := stepObs_onExit_preserved Ev.callGraceful o (by intro _ _ hh; cases hh)
      show (runObs es (stepObs Ev.callGraceful o)).onExitCalls = _
      rw [ih _ (by rw [hp.2, h]), hp.1]
      rfl
    | callKill =>
      have hp := stepObs_onExit_preserved Ev.callKill o (by intro _ _ hh; cases hh)
      show (runObs es (stepObs Ev.callKill o)).onExitCalls = _
      rw [ih _ (by rw [hp.2, h]), hp.1]
      rfl
    | attemptSettle i ok =>
      have hp := stepObs_onExit_preserved (Ev.attemptSettle i ok) o (by intro _ _ hh; cases hh)
      show (runObs es (stepObs (Ev.attemptSettle i ok) o)).onExitCalls = _
      rw [ih _ (by rw [hp.2, h]), hp.1]
      rfl
    | cleanupDone =>
      have hp := stepObs_onExit_preserved Ev.cleanupDone o (by intro _ _ hh; cases hh)
      show (runObs es (stepObs Ev.cleanupDone o)).onExitCalls = _
      rw [ih _ (by rw [hp.2, h]), hp.1]
      rfl
    | resolveTask i =>
      have hp := stepObs_onExit_preserved (Ev.resolveTask i) o (by intro _ _ hh; cases hh)
      show (runObs es (stepObs (Ev.resolveTask i) o)).onExitCalls = _
      rw [ih _ (by rw [hp.2, h]), hp.1]
      rfl

theorem wstep_frozen {μ : Type} (pat : String → Option μ) (e : WEv) (s : WState μ)
    (hl : s.listenersActive = false) (ht : s.timerActive = false) :
    wstep pat e s = s := by
  cases e <;> simp [wstep, hl, ht]

theorem wrun_frozen {μ : Type} (pat : String → Option μ) (es : List WEv) (s : WState μ)
    (hl : s.listenersActive = false) (ht : s.timerActive = false) :
    wrun pat es s = s := by
  induction es with
  | nil => rfl
  | cons e es ih =>
    show wrun pat es (wstep pat e s) = s
    rw [wstep_frozen pat e s hl ht, ih]

theorem wstep_settled_inactive {μ : Type} (pat : String → Option μ) (e : WEv) (s : WState μ)
    (h : s.settled.isSome = true → s.listenersActive = false ∧ s.timerActive = false) :
    (wstep pat e s).settled.isSome = true →
      (wstep pat e s).listenersActive = false ∧ (wstep pat e s).timerActive = false := by
  cases e with
  | line l =>
    cases hl : s.listenersActive with
    | false => simpa [wstep, hl] using h
    | true =>
      simp only [wstep, hl, if_true]
      unfold onLineW
      cases hp : pat l with
      | none =>
        intro hs
        simp at hs
        rcases h (by simpa using hs) with ⟨h1, _⟩
        rw [h1] at hl
        cases hl
      | some m => intro _; exact ⟨rfl, rfl⟩
  | closeEv =>
    cases hl : s.listenersActive with
    | false => simpa [wstep, hl] using h
    | true =>
      simp only [wstep, hl, if_true]
      exact fun _ => ⟨rfl, rfl⟩
  | exitEv =>
    cases hl : s.listenersActive with
    | false => simpa [wstep, hl] using h
    | true =>
      simp only [wstep, hl, if_true]
      exact fun _ => ⟨rfl, rfl⟩
  | errorEv m =>
    cases hl : s.listenersActive with
    | false => simpa [wstep, hl] using h
    | true =>
      simp only [wstep, hl, if_true]
      exact fun _ => ⟨rfl, rfl⟩
  | timeoutEv =>
    cases ht : s.timerActive with
    | false => simpa [wstep, ht] using h
    | true =>
      simp only [wstep, ht, if_true]
      exact fun _ => ⟨rfl, rfl⟩

/-- In every reachable state, a settled promise means the listeners are
detached and the timer is cancelled: teardown happens on whichever arm
fires first. -/
theorem wrun_settled_inactive {μ : Type} (pat : String → Option μ) (es : List WEv)
    (b : Bool) (h : (wrun pat es (winit μ b)).settled.isSome = true) :
    (wrun pat es (winit μ b)).listenersActive = false ∧
      (wrun pat es (winit μ b)).timerActive = false := by
  suffices hgen : ∀ s : WState μ,
      (s.settled.isSome = true → s.listenersActive = false ∧ s.timerActive = false) →
      ((wrun pat es s).settled.isSome = true →
        (wrun pat es s).listenersActive = false ∧ (wrun pat es s).timerActive = false) by
    exact hgen (winit μ b) (by intro hs; simp [winit] at hs) h
  clear h
  induction es with
  | nil => intro s hs; exact hs
  | cons e es ih =>
    intro s hs
    exact ih (wstep pat e s) (wstep_settled_inactive pat e s hs)

/-- Processing a stream of lines: the promise resolves with the match of the
first matching line (`List.findSome?`), and stays pending if none matches. -/
theorem wrun_lines {μ : Type} (pat : String → Option μ) (ls : List String) (s : WState μ)
    (hpend : s.settled = none) (hact : s.listenersActive = true) :
    (wrun pat (ls.map WEv.line) s).settled = (ls.findSome? pat).map WRes.resolved := by
  induction ls generalizing s with
  | nil => simpa [wrun, List.findSome?] using hpend
  | cons l ls ih =>
    show (wrun pat (ls.map WEv.line) (wstep pat (WEv.line l) s)).settled = _
    rw [show wstep pat (WEv.line l) s = onLineW pat l s by simp [wstep, hact]]
    unfold onLineW
    cases hp : pat l with
    | none =>
      rw [ih _ (by simpa using hpend) (by simpa using hact)]
      simp [List.findSome?_cons, hp]
    | some m =>
      rw [wrun_frozen pat _ _ rfl rfl]
      simp [List.findSome?_cons, hp]

/-- Processing only non-matching lines leaves the promise pending, the
listeners attached and the timer untouched, and accumulates every line
(each followed by a newline) in the buffer. -/
theorem wrun_lines_nomatch {μ : Type} (pat : String → Option μ) (ls : List String)
    (s : WState μ) (hpend : s.settled = none) (hact : s.listenersActive = true)
    (h : ∀ l ∈ ls, pat l = none) :
    (wrun pat (ls.map WEv.line) s).settled = none ∧
    (wrun pat (ls.map WEv.line) s).listenersActive = true ∧
    (wrun pat (ls.map WEv.line) s).timerActive = s.timerActive ∧
    (wrun pat (ls.map WEv.line) s).buf.data = s.buf.data ++ linesData ls := by
  induction ls generalizing s with
  | nil => exact ⟨hpend, hact, rfl, by simp [wrun, linesData]⟩
  | cons l ls ih =>
    have hl : pat l = none := h l (List.mem_cons_self l ls)
    have hrest : ∀ x ∈ ls, pat x = none := fun x hx => h x (List.mem_cons_of_mem l hx)
    obtain ⟨h1, h2, h3, h4⟩ := ih { s with buf := s.buf ++ l ++ "\n" }
      (by simpa using hpend) (by simpa using hact) hrest
    have hstep : wstep pat (WEv.line l) s = { s with buf := s.buf ++ l ++ "\n" } := by
      simp [wstep, hact, onLineW, hl]
    have hrw : wrun pat ((l :: ls).map WEv.line) s =
        wrun pat (ls.map WEv.line) { s with buf := s.buf ++ l ++ "\n" } := by
      show wrun pat (ls.map WEv.line) (wstep pat (WEv.line l) s) = _
      rw [hstep]
    rw [hrw]
    refine ⟨h1, h2, h3, ?_⟩
    rw [h4]
    show (s.buf ++ l ++ "\n").data ++ linesData ls = s.buf.data ++ linesData (l :: ls)
    simp [String.data_append, linesData]

theorem containsSeg_trans {a b c : List Char} (h1 : containsSeg a b) (h2 : containsSeg b c) :
    containsSeg a c := by
  obtain ⟨u, v, rfl⟩ := h1
  obtain ⟨u', v', rfl⟩ := h2
  exact ⟨u' ++ u, v ++ v', by simp [List.append_assoc]⟩

/-- Every line of the list occurs contiguously in the rendered buffer. -/
theorem containsSeg_linesData {l : String} {ls : List String} (h : l ∈ ls) :
    containsSeg l.data (linesData ls) := by
  induction ls with
  | nil => cases h
  | cons x ls ih =>
    rcases List.mem_cons.mp h with h1 | h1
    · exact ⟨[], '\n' :: linesData ls, by rw [h1]; simp [linesData]⟩
    · obtain ⟨u, v, huv⟩ := ih h1
      exact ⟨x.data ++ '\n' :: u, v, by simp [linesData, huv, List.append_assoc]⟩

/-- The characters of the failure message, decomposed around the buffer. -/
theorem closeMessage_data (err : Option String) (buf : String) :
    (closeMessage err buf).data =
      (headerFor err).data ++ ('\n' :: (buf.data ++
        ('\n' :: '\n' :: (troubleshootingLine.data ++ ['\n'])))) := by
  show (headerFor err ++ "\n" ++ buf ++ "\n" ++ "" ++ "\n" ++
      troubleshootingLine ++ "\n" ++ "").data = _
  simp [String.data_append, List.append_assoc]

/-- The buffer occurs contiguously in the failure message. -/
theorem containsSeg_buf_closeMessage (err : Option String) (buf : String) :
    containsSeg buf.data (closeMessage err buf).data := by
  rw [closeMessage_data]
  exact ⟨(headerFor err).data ++ ['\n'],
         '\n' :: '\n' :: (troubleshootingLine.data ++ ['\n']),
         by simp [List.append_assoc]⟩

/-- The triggering error's message occurs contiguously in the failure
message. -/
theorem containsSeg_err_closeMessage (em : String) (buf : String) :
    containsSeg em.data (closeMessage (some em) buf).data := by
  rw [closeMessage_data]
  have hh : (headerFor (some em)).data =
      ("Failed to launch browser!".data ++ [' ']) ++ em.data := by
    show ("Failed to launch browser!" ++ (" " ++ em)).data = _
    simp [String.data_append, List.append_assoc]
  rw [hh]
  exact ⟨"Failed to launch browser!".data ++ [' '],
         '\n' :: (buf.data ++ ('\n' :: '\n' :: (troubleshootingLine.data ++ ['\n']))),
         by simp [List.append_assoc]⟩

/-!
## Properties of the forceful-kill procedure and the removal paths
-/

theorem killProcessFn_attemptCalls (env : LaunchEnv) (c : Cfg) :
    (killProcessFn env c).attemptCalls = c.attemptCalls := by
  unfold killProcessFn sendKillSignal
  by_cases hp : c.pid ≠ 0 ∧ c.killed = false ∧ c.processClosed = false <;>
    cases hk : env.killThrows <;> simp [hp]

theorem killProcessFn_listenersRemoved (env : LaunchEnv) (c : Cfg) :
    (killProcessFn env c).listenersRemoved = true := by
  unfold killProcessFn sendKillSignal
  by_cases hp : c.pid ≠ 0 ∧ c.killed = false ∧ c.processClosed = false <;>
    cases hk : env.killThrows <;> simp [hp]

theorem killProcessFn_tasks (env : LaunchEnv) (c : Cfg) :
    (killProcessFn env c).tasks = c.tasks := by
  unfold killProcessFn sendKillSignal
  by_cases hp : c.pid ≠ 0 ∧ c.killed = false ∧ c.processClosed = false <;>
    cases hk : env.killThrows <;> simp [hp]

theorem killProcessFn_resolutions (env : LaunchEnv) (c : Cfg) :
    (killProcessFn env c).resolutions = c.resolutions := by
  unfold killProcessFn sendKillSignal
  by_cases hp : c.pid ≠ 0 ∧ c.killed = false ∧ c.processClosed = false <;>
    cases hk : env.killThrows <;> simp [hp]

/-- When the process is believed alive, `killProcess` issues the forceful
termination signal (whether or not the platform call raises). -/
theorem killProcessFn_killSignalsSent_alive (env : LaunchEnv) (c : Cfg)
    (hp : c.pid ≠ 0 ∧ c.killed = false ∧ c.processClosed = false) :
    (killProcessFn env c).killSignalsSent = c.killSignalsSent + 1 := by
  unfold killProcessFn sendKillSignal
  cases hk : env.killThrows <;> simp [hp]

/-- Once `processClosed` is set, `killProcess` sends no signal. -/
theorem killProcessFn_killSignalsSent_closed (env : LaunchEnv) (c : Cfg)
    (h : c.processClosed = true) :
    (killProcessFn env c).killSignalsSent = c.killSignalsSent := by
  unfold killProcessFn sendKillSignal
  have hp : ¬ (c.pid ≠ 0 ∧ c.killed = false ∧ c.processClosed = false) := by
    simp [h]
  cases hk : env.killThrows <;> simp [hp]

/-- Membership in the removed set is preserved by one asynchronous removal
arm. -/
theorem asyncRemoveStep_mono (env : LaunchEnv) (rem : List String) (d x : String)
    (hx : x ∈ rem) : x ∈ asyncRemoveStep env rem d := by
  unfold asyncRemoveStep removeFolderOnce
  by_cases h1 : d ∈ rem
  · simpa [h1] using hx
  · by_cases h2 : d ∈ env.failingDirs
    · simpa [h1, h2] using hx
    · simp only [h1, h2]
      exact List.mem_cons_of_mem d hx

theorem foldl_asyncRemoveStep_mono (env : LaunchEnv) (ds : List String)
    (rem : List String) (x : String) (hx : x ∈ rem) :
    x ∈ ds.foldl (asyncRemoveStep env) rem := by
  induction ds generalizing rem with
  | nil => exact hx
  | cons d ds ih => exact ih _ (asyncRemoveStep_mono env rem d x hx)

theorem foldl_asyncRemoveStep_removes (env : LaunchEnv) (ds : List String)
    (removed : List String) (d : String) (hd : d ∈ ds) (hf : d ∉ env.failingDirs) :
    d ∈ ds.foldl (asyncRemoveStep env) removed := by
  induction ds generalizing removed with
  | nil => cases hd
  | cons x ds ih =>
    rcases List.mem_cons.mp hd with h1 | h1
    · subst h1
      show d ∈ ds.foldl (asyncRemoveStep env) (asyncRemoveStep env removed d)
      apply foldl_asyncRemoveStep_mono
      by_cases h2 : d ∈ removed
      · simp [asyncRemoveStep, removeFolderOnce, h2]
      · simp [asyncRemoveStep, removeFolderOnce, h2, hf]
    · exact ih _ h1

/-- On the asynchronous cleanup path, every directory whose removal does not
fail ends up removed — failures of other directories are caught
individually and do not prevent it. -/
theorem asyncRemoveAll_removes (env : LaunchEnv) (removed : List String) (d : String)
    (hd : d ∈ env.tempDirectories) (hf : d ∉ env.failingDirs) :
    d ∈ (asyncRemoveAll env removed).1 :=
  foldl_asyncRemoveStep_removes env env.tempDirectories removed d hd hf

/-- On the synchronous forceful-kill path, when every directory either has
already been removed or does not fail, the loop attempts every directory
and raises nothing — in particular an already-removed directory is not an
error. -/
theorem syncRemoveLoop_all (env : LaunchEnv) (dirs removed : List String)
    (h : ∀ d ∈ dirs, d ∈ removed ∨ d ∉ env.failingDirs) :
    (syncRemoveLoop env removed dirs).2.1 = dirs ∧
    (syncRemoveLoop env removed dirs).2.2 = false := by
  induction dirs generalizing removed with
  | nil => exact ⟨rfl, rfl⟩
  | cons d ds ih =>
    have hd := h d (List.mem_cons_self d ds)
    have hok : ∃ removed1, removeFolderOnce env removed d = Except.ok removed1 ∧
        ∀ x, x ∈ removed → x ∈ removed1 := by
      unfold removeFolderOnce
      by_cases h1 : d ∈ removed
      · exact ⟨removed, by simp [h1], fun x hx => hx⟩
      · rcases hd with h2 | h2
        · exact absurd h2 h1
        · exact ⟨d :: removed, by simp [h1, h2], fun x hx => List.mem_cons_of_mem d hx⟩
    obtain ⟨removed1, hr, hmono⟩ := hok
    have hrest : ∀ x ∈ ds, x ∈ removed1 ∨ x ∉ env.failingDirs := by
      intro x hx
      rcases h x (List.mem_cons_of_mem d hx) with h1 | h1
      · exact Or.inl (hmono x h1)
      · exact Or.inr h1
    have := ih removed1 hrest
    refine ⟨?_, ?_⟩ <;> simp [syncRemoveLoop, hr, this.1, this.2]

theorem run_replicate_kill_tasks (env : LaunchEnv) (n : Nat) (c : Cfg) :
    (run env (List.replicate n Ev.callKill) c).tasks.length = c.tasks.length + n := by
  induction n generalizing c with
  | zero => rfl
  | succ n ih =>
    rw [List.replicate_succ]
    show (run env (List.replicate n Ev.callKill) (step env Ev.callKill c)).tasks.length = _
    rw [ih]
    have hstep : (step env Ev.callKill c).tasks =
        c.tasks ++ [{ kind := TaskKind.killWait, pc := TaskPc.awaitCleanup }] := by
      show (killProcessFn env c).tasks ++ _ = _
      rw [killProcessFn_tasks]
    rw [hstep]
    simp [List.length_append]
    omega

/-!
## The claims
-/

/-- C1, counterexample: the claim says every `gracefullyClose` invocation —
first or reentrant — resolves only after the exit-triggered cleanup has
completed.  On the schedule «first `gracefullyClose`; reentrant
`gracefullyClose`; child exit; resume the reentrant call» the reentrant
call's promise resolves (it only awaits the closed signal) while the
cleanup-complete flag is still false. -/
theorem claim_C1_counterexample :
    ((run quietEnv
        [Ev.callGraceful, Ev.callGraceful, Ev.childExit none (some "SIGKILL"),
         Ev.resolveTask 1] (cfg0 7)).resolutions =
      [{ taskId := 1, kind := TaskKind.reentrant, closedAtRes := true,
         cleanupAtRes := false }]) ∧
    (run quietEnv
        [Ev.callGraceful, Ev.callGraceful, Ev.childExit none (some "SIGKILL"),
         Ev.resolveTask 1] (cfg0 7)).cleanupSettled = false :=
  ⟨rfl, rfl⟩

/-- C1 (amended): over every schedule, every resolution of a
`gracefullyClose` (or `killAndWait`) promise happens only after the child
process has terminated; resolutions of first (non-reentrant) calls happen
only after the exit-triggered cleanup has also completed, while a
reentrant call may resolve before the cleanup completes (it awaits only
the closed signal). -/
theorem claim_C1 (env : LaunchEnv) (es : List Ev) (pid : Nat) (r : Res)
    (hr : r ∈ (run env es (cfg0 pid)).resolutions) :
    r.closedAtRes = true ∧ (r.kind ≠ TaskKind.reentrant → r.cleanupAtRes = true) :=
  (obsInv_run env es pid).res_ok r hr

/-- C1, witness: a first `gracefullyClose` call resolving after exit and
cleanup. -/
theorem claim_C1_witness :
    ({ taskId := 0, kind := TaskKind.first, closedAtRes := true,
       cleanupAtRes := true } : Res).closedAtRes = true ∧
    (({ taskId := 0, kind := TaskKind.first, closedAtRes := true,
        cleanupAtRes := true } : Res).kind ≠ TaskKind.reentrant →
      ({ taskId := 0, kind := TaskKind.first, closedAtRes := true,
         cleanupAtRes := true } : Res).cleanupAtRes = true) :=
  claim_C1 quietEnv
    [Ev.childExit (some 0) none, Ev.cleanupDone, Ev.callGraceful,
     Ev.attemptSettle 0 true, Ev.resolveTask 0] 7
    { taskId := 0, kind := TaskKind.first, closedAtRes := true, cleanupAtRes := true }
    (by decide)

/-- C2: a reentrant `gracefullyClose` call (one arriving while
`gracefullyClosing` is already set) immediately runs the synchronous
forceful-kill procedure (listeners detached; the forceful signal issued
when the process is believed alive), does not invoke the caller's
`attemptToGracefullyClose` again (over any schedule the attempt runs at
most once), parks awaiting the closed signal, and its promise resolves
only after the child has terminated. -/
theorem claim_C2 :
    (∀ (env : LaunchEnv) (c : Cfg), c.gracefullyClosing = true →
      (step env Ev.callGraceful c).attemptCalls = c.attemptCalls ∧
      (step env Ev.callGraceful c).listenersRemoved = true ∧
      ((c.pid ≠ 0 ∧ c.killed = false ∧ c.processClosed = false) →
        (step env Ev.callGraceful c).killSignalsSent = c.killSignalsSent + 1) ∧
      (step env Ev.callGraceful c).tasks =
        c.tasks ++ [{ kind := TaskKind.reentrant, pc := TaskPc.awaitClose }]) ∧
    (∀ (env : LaunchEnv) (es : List Ev) (pid : Nat),
      (run env es (cfg0 pid)).attemptCalls ≤ 1) ∧
    (∀ (env : LaunchEnv) (es : List Ev) (pid : Nat) (r : Res),
      r ∈ (run env es (cfg0 pid)).resolutions → r.kind = TaskKind.reentrant →
      r.closedAtRes = true) := by
  refine ⟨?_, ?_, ?_⟩
  · intro env c hg
    have hstep : step env Ev.callGraceful c =
        { killProcessFn env c with tasks := (killProcessFn env c).tasks ++
            [{ kind := TaskKind.reentrant, pc := TaskPc.awaitClose }] } := by
      simp [step, hg]
    refine ⟨?_, ?_, ?_, ?_⟩
    · rw [hstep]
      exact killProcessFn_attemptCalls env c
    · rw [hstep]
      exact killProcessFn_listenersRemoved env c
    · intro hp
      rw [hstep]
      exact killProcessFn_killSignalsSent_alive env c hp
    · rw [hstep]
      show (killProcessFn env c).tasks ++ _ = _
      rw [killProcessFn_tasks]
  · intro env es pid
    have h := (obsInv_run env es pid).attempt_flag
    show (obs (run env es (cfg0 pid))).attemptCalls ≤ 1
    rw [h]
    split <;> omega
  · intro env es pid r hr hk
    exact ((obsInv_run env es pid).res_ok r hr).1

/-- C2, witness: a concrete reentrant call and a concrete reentrant
resolution. -/
theorem claim_C2_witness :
    ((step quietEnv Ev.callGraceful gcCfg).attemptCalls = gcCfg.attemptCalls) ∧
    ({ taskId := 1, kind := TaskKind.reentrant, closedAtRes := true,
       cleanupAtRes := false } : Res).closedAtRes = true :=
  ⟨(claim_C2.1 quietEnv gcCfg rfl).1,
   claim_C2.2.2 quietEnv
     [Ev.callGraceful, Ev.callGraceful, Ev.childExit none (some "SIGKILL"),
      Ev.resolveTask 1] 7
     { taskId := 1, kind := TaskKind.reentrant, closedAtRes := true, cleanupAtRes := false }
     (by decide) (by decide)⟩

/-- C3: over every schedule, the child's `exit` event is observed at most
once (the observer is a `once` listener), `options.onExit` is invoked
exactly once if and only if the child exits — with the exit code and
terminating signal of that first exit event — and at the moment of each
(i.e. the unique) invocation the registered process/signal listeners have
already been removed (the recorded third component is `true`). -/
theorem claim_C3 (env : LaunchEnv) (es : List Ev) (pid : Nat) :
    (run env es (cfg0 pid)).onExitCalls =
      (match firstExit es with
       | some (code, sig) => [(code, sig, true)]
       | none => []) := by
  have h := runObs_onExit es (obs (cfg0 pid)) rfl
  show (obs (run env es (cfg0 pid))).onExitCalls = _
  rw [obs_run, h]
  rfl

/-- C4: `kill` (`killAndWait`) may be invoked any number of times in any
state: (1) after the process has exited it issues no forceful signal;
(2) failures of the kill signal and of directory removals are swallowed —
they never change the observable behaviour of the launch (this is the
model's rendering of «never throws»: every fallible primitive is wrapped
in a catch, and the caught error has no effect); (3) any number of `kill`
invocations is accepted, each returning its own completion promise; and
(4) every `kill` promise resolves normally, only once the exit-triggered
cleanup has completed. -/
theorem claim_C4 :
    (∀ (env : LaunchEnv) (c : Cfg), c.processClosed = true →
      (killProcessFn env c).killSignalsSent = c.killSignalsSent) ∧
    (∀ (env env' : LaunchEnv) (es : List Ev) (c : Cfg),
      obs (run env es c) = obs (run env' es c)) ∧
    (∀ (env : LaunchEnv) (n : Nat) (pid : Nat),
      (run env (List.replicate n Ev.callKill) (cfg0 pid)).tasks.length = n) ∧
    (∀ (env : LaunchEnv) (es : List Ev) (pid : Nat) (r : Res),
      r ∈ (run env es (cfg0 pid)).resolutions → r.kind = TaskKind.killWait →
      r.closedAtRes = true ∧ r.cleanupAtRes = true) := by
  refine ⟨?_, ?_, ?_, ?_⟩
  · intro env c h
    exact killProcessFn_killSignalsSent_closed env c h
  · intro env env' es c
    exact run_obs_env_independent env env' es c
  · intro env n pid
    have h := run_replicate_kill_tasks env n (cfg0 pid)
    simpa [cfg0] using h
  · intro env es pid r hr hk
    have h := (obsInv_run env es pid).res_ok r hr
    exact ⟨h.1, h.2 (by rw [hk]; intro hh; cases hh)⟩

/-- C4, witness: a `kill` after exit sends no signal; a `kill` promise
resolving after cleanup. -/
theorem claim_C4_witness :
    ((killProcessFn quietEnv closedCfg).killSignalsSent = closedCfg.killSignalsSent) ∧
    ({ taskId := 0, kind := TaskKind.killWait, closedAtRes := true,
       cleanupAtRes := true } : Res).closedAtRes = true ∧
    ({ taskId := 0, kind := TaskKind.killWait, closedAtRes := true,
       cleanupAtRes := true } : Res).cleanupAtRes = true :=
  ⟨claim_C4.1 quietEnv closedCfg rfl,
   claim_C4.2.2.2 quietEnv
     [Ev.callKill, Ev.childExit none (some "SIGKILL"), Ev.cleanupDone, Ev.resolveTask 0] 7
     { taskId := 0, kind := TaskKind.killWait, closedAtRes := true, cleanupAtRes := true }
     (by decide) (by decide)⟩

/-- C5: when the caller-supplied `attemptToGracefullyClose` rejects during a
first `gracefullyClose` call, the rejection is consumed by the
`.catch(() => killProcess())`: the forceful-kill procedure runs (listeners
detached), the call parks at exactly the same suspension point
(`await waitForCleanup`) as on success — so no rejection propagates — and
every first-call promise resolves normally, only after the child has
terminated and the cleanup has completed. -/
theorem claim_C5 :
    (∀ (env : LaunchEnv) (c : Cfg) (i : Nat) (t : GCTask),
      c.tasks[i]? = some t → t.kind = TaskKind.first → t.pc = TaskPc.awaitAttempt →
      (step env (Ev.attemptSettle i false) c).tasks =
        c.tasks.set i { kind := TaskKind.first, pc := TaskPc.awaitCleanup } ∧
      (step env (Ev.attemptSettle i false) c).listenersRemoved = true ∧
      (step env (Ev.attemptSettle i false) c).tasks =
        (step env (Ev.attemptSettle i true) c).tasks) ∧
    (∀ (env : LaunchEnv) (es : List Ev) (pid : Nat) (r : Res),
      r ∈ (run env es (cfg0 pid)).resolutions → r.kind = TaskKind.first →
      r.closedAtRes = true ∧ r.cleanupAtRes = true) := by
  refine ⟨?_, ?_⟩
  · intro env c i t hti hk hpc
    have hcnd : t.kind = TaskKind.first ∧ t.pc = TaskPc.awaitAttempt := ⟨hk, hpc⟩
    have hfalse : step env (Ev.attemptSettle i false) c =
        { killProcessFn env c with tasks := ((killProcessFn env c).tasks.set i
            { kind := t.kind, pc := TaskPc.awaitCleanup }) } := by
      simp [step, hti, hcnd]
    have htrue : step env (Ev.attemptSettle i true) c =
        { c with tasks := (c.tasks.set i
            { kind := t.kind, pc := TaskPc.awaitCleanup }) } := by
      simp [step, hti, hcnd]
    refine ⟨?_, ?_, ?_⟩
    · rw [hfalse]
      show (killProcessFn env c).tasks.set i _ = _
      rw [killProcessFn_tasks, hk]
    · rw [hfalse]
      exact killProcessFn_listenersRemoved env c
    · rw [hfalse, htrue]
      show (killProcessFn env c).tasks.set i _ = c.tasks.set i _
      rw [killProcessFn_tasks]
  · intro env es pid r hr hk
    have h := (obsInv_run env es pid).res_ok r hr
    exact ⟨h.1, h.2 (by rw [hk]; intro hh; cases hh)⟩

/-- C5, witness: a concrete rejected graceful attempt, and the call's
promise still resolving normally after exit and cleanup. -/
theorem claim_C5_witness :
    ((step quietEnv (Ev.attemptSettle 0 false) attemptCfg).tasks =
      attemptCfg.tasks.set 0 { kind := TaskKind.first, pc := TaskPc.awaitCleanup }) ∧
    ({ taskId := 0, kind := TaskKind.first, closedAtRes := true,
       cleanupAtRes := true } : Res).cleanupAtRes = true :=
  ⟨(claim_C5.1 quietEnv attemptCfg 0
      { kind := TaskKind.first, pc := TaskPc.awaitAttempt } rfl rfl rfl).1,
   (claim_C5.2 quietEnv
      [Ev.callGraceful, Ev.attemptSettle 0 false, Ev.childExit none (some "SIGKILL"),
       Ev.cleanupDone, Ev.resolveTask 0] 7
      { taskId := 0, kind := TaskKind.first, closedAtRes := true, cleanupAtRes := true }
      (by decide) (by decide)).2⟩

/-- C9, counterexample: the claim says the stdout/stderr line readers are
attached if and only if piped stdio is requested; but `launchProcess`
attaches them unconditionally — with `pipe = false` both readers (channels
`browser:out` and `browser:err`) are still attached. -/
theorem claim_C9_counterexample :
    (launchWiring false).2 = attachedReaders ∧ attachedReaders ≠ [] :=
  ⟨rfl, by decide⟩

/-- C9 (amended): the line readers forwarding the child's stdout to channel
`browser:out` and its stderr to channel `browser:err` (at warning severity)
are attached unconditionally, for both values of the `pipe` flag — stdout
and stderr are piped in both stdio configurations (entries 1 and 2 are
`'pipe'` either way); the `pipe` flag only selects the longer stdio array
(5 entries instead of 3), adding two extra pipe descriptors. -/
theorem claim_C9 (pipe : Bool) :
    (launchWiring pipe).2 =
      [{ channel := { name := "browser:out", severity := none } },
       { channel := { name := "browser:err", severity := some "warning" } }] ∧
    (launchWiring pipe).1.length = (if pipe then 5 else 3) ∧
    (launchWiring pipe).1[1]? = some StdioMode.pipe ∧
    (launchWiring pipe).1[2]? = some StdioMode.pipe := by
  cases pipe <;> exact ⟨rfl, rfl, rfl, rfl⟩

/-- C10: a first `gracefullyClose` call performed after the child has
already exited still invokes `attemptToGracefullyClose` — the first-call
path checks only the `gracefullyClosing` latch, not process liveness — and
the call then resolves because the cleanup-complete signal has already
fired (end-to-end schedule: exit, cleanup, `gracefullyClose`, attempt
settles either way, resume: the attempt ran exactly once and the promise
resolved with the process terminated and cleanup completed). -/
theorem claim_C10 :
    (∀ (env : LaunchEnv) (c : Cfg),
      c.gracefullyClosing = false → c.processClosed = true →
      (step env Ev.callGraceful c).attemptCalls = c.attemptCalls + 1 ∧
      (step env Ev.callGraceful c).tasks =
        c.tasks ++ [{ kind := TaskKind.first, pc := TaskPc.awaitAttempt }]) ∧
    (∀ (code : Option Int) (sig : Option String) (ok : Bool),
      (run quietEnv
        [Ev.childExit code sig, Ev.cleanupDone, Ev.callGraceful,
         Ev.attemptSettle 0 ok, Ev.resolveTask 0] (cfg0 7)).attemptCalls = 1 ∧
      (run quietEnv
        [Ev.childExit code sig, Ev.cleanupDone, Ev.callGraceful,
         Ev.attemptSettle 0 ok, Ev.resolveTask 0] (cfg0 7)).resolutions =
        [{ taskId := 0, kind := TaskKind.first, closedAtRes := true,
           cleanupAtRes := true }]) := by
  refine ⟨?_, ?_⟩
  · intro env c hg _hc
    have hstep : step env Ev.callGraceful c =
        { c with gracefullyClosing := true, attemptCalls := c.attemptCalls + 1,
                 tasks := (c.tasks ++
                   [{ kind := TaskKind.first, pc := TaskPc.awaitAttempt }]) } := by
      simp [step, hg]
    rw [hstep]
    exact ⟨rfl, rfl⟩
  · intro code sig ok
    cases ok <;> exact ⟨rfl, rfl⟩

/-- C10, witness: the step applied to a concrete already-exited idle
configuration, and the concrete end-to-end schedule. -/
theorem claim_C10_witness :
    ((step quietEnv Ev.callGraceful doneCfg).attemptCalls = doneCfg.attemptCalls + 1) ∧
    (run quietEnv
        [Ev.childExit (some 0) none, Ev.cleanupDone, Ev.callGraceful,
         Ev.attemptSettle 0 true, Ev.resolveTask 0] (cfg0 7)).attemptCalls = 1 :=
  ⟨(claim_C10.1 quietEnv doneCfg rfl rfl).1,
   (claim_C10.2 (some 0) none true).1⟩

/-- C6: over a stream of lines, `waitForLine` resolves with the match of
the first line matching the pattern (`List.findSome?`), and stays pending
when no line matches; and on any schedule, once the promise has settled the
listeners are detached, the pending timer is cancelled, and every further
event — in particular every further line — leaves the state unchanged. -/
theorem claim_C6 {μ : Type} (pat : String → Option μ) (b : Bool) :
    (∀ (ls : List String),
      (wrun pat (ls.map WEv.line) (winit μ b)).settled =
        (ls.findSome? pat).map WRes.resolved) ∧
    (∀ (es : List WEv),
      (wrun pat es (winit μ b)).settled.isSome = true →
        (wrun pat es (winit μ b)).listenersActive = false ∧
        (wrun pat es (winit μ b)).timerActive = false ∧
        ∀ (e : WEv), wstep pat e (wrun pat es (winit μ b)) = wrun pat es (winit μ b)) := by
  refine ⟨?_, ?_⟩
  · intro ls
    exact wrun_lines pat ls (winit μ b) rfl rfl
  · intro es hs
    obtain ⟨hl, ht⟩ := wrun_settled_inactive pat es b hs
    exact ⟨hl, ht, fun e => wstep_frozen pat e _ hl ht⟩

/-- C6, witness: a concrete pattern resolving on the first matching line,
and a settled state on which teardown has happened. -/
theorem claim_C6_witness :
    ((wrun patListen (["x", "Listening on 127.0.0.1:9222", "y"].map WEv.line)
        (winit String true)).settled =
      ((["x", "Listening on 127.0.0.1:9222", "y"].findSome? patListen).map
        WRes.resolved)) ∧
    (wrun patListen [WEv.line "Listening on 127.0.0.1:9222"]
        (winit String true)).listenersActive = false :=
  ⟨(claim_C6 patListen true).1 ["x", "Listening on 127.0.0.1:9222", "y"],
   ((claim_C6 patListen true).2 [WEv.line "Listening on 127.0.0.1:9222"]
      (by decide)).1⟩

/-- C7: if, after any number of non-matching lines, the stream closes, the
process reports exit, or the process reports a spawn error, `waitForLine`
rejects with the diagnostic failure whose message is built from the
accumulated buffer; that message contains (as a contiguous substring) every
line collected so far, and, when an error triggered the termination, the
error's message. -/
theorem claim_C7 {μ : Type} (pat : String → Option μ) (b : Bool) (ls : List String)
    (em : String) (h : ∀ l ∈ ls, pat l = none) :
    ((wstep pat WEv.closeEv (wrun pat (ls.map WEv.line) (winit μ b))).settled =
      some (WRes.rejected (closeMessage none (renderLines ls)))) ∧
    ((wstep pat WEv.exitEv (wrun pat (ls.map WEv.line) (winit μ b))).settled =
      some (WRes.rejected (closeMessage none (renderLines ls)))) ∧
    ((wstep pat (WEv.errorEv em) (wrun pat (ls.map WEv.line) (winit μ b))).settled =
      some (WRes.rejected (closeMessage (some em) (renderLines ls)))) ∧
    (∀ l ∈ ls, containsSeg l.data (closeMessage none (renderLines ls)).data) ∧
    (∀ l ∈ ls, containsSeg l.data (closeMessage (some em) (renderLines ls)).data) ∧
    containsSeg em.data (closeMessage (some em) (renderLines ls)).data := by
  obtain ⟨h1, h2, h3, h4⟩ := wrun_lines_nomatch pat ls (winit μ b) rfl rfl h
  have hbuf : (wrun pat (ls.map WEv.line) (winit μ b)).buf = renderLines ls := by
    apply String.ext
    rw [h4]
    rfl
  refine ⟨?_, ?_, ?_, ?_, ?_, ?_⟩
  · rw [show wstep pat WEv.closeEv (wrun pat (ls.map WEv.line) (winit μ b)) =
        onCloseW none (wrun pat (ls.map WEv.line) (winit μ b)) by simp [wstep, h2]]
    show some (WRes.rejected (closeMessage none
      (wrun pat (ls.map WEv.line) (winit μ b)).buf)) = _
    rw [hbuf]
  · rw [show wstep pat WEv.exitEv (wrun pat (ls.map WEv.line) (winit μ b)) =
        onCloseW none (wrun pat (ls.map WEv.line) (winit μ b)) by simp [wstep, h2]]
    show some (WRes.rejected (closeMessage none
      (wrun pat (ls.map WEv.line) (winit μ b)).buf)) = _
    rw [hbuf]
  · rw [show wstep pat (WEv.errorEv em) (wrun pat (ls.map WEv.line) (winit μ b)) =
        onCloseW (some em) (wrun pat (ls.map WEv.line) (winit μ b)) by simp [wstep, h2]]
    show some (WRes.rejected (closeMessage (some em)
      (wrun pat (ls.map WEv.line) (winit μ b)).buf)) = _
    rw [hbuf]
  · intro l hl
    exact containsSeg_trans (containsSeg_linesData hl)
      (containsSeg_buf_closeMessage none (renderLines ls))
  · intro l hl
    exact containsSeg_trans (containsSeg_linesData hl)
      (containsSeg_buf_closeMessage (some em) (renderLines ls))
  · exact containsSeg_err_closeMessage em (renderLines ls)

/-- C7, witness: a process exiting after two non-matching lines, and the
error message appearing in the diagnostic. -/
theorem claim_C7_witness :
    ((wstep patListen WEv.exitEv
        (wrun patListen (["x", "y"].map WEv.line) (winit String true))).settled =
      some (WRes.rejected (closeMessage none (renderLines ["x", "y"])))) ∧
    containsSeg "boom".data (closeMessage (some "boom") (renderLines ["x", "y"])).data :=
  ⟨(claim_C7 patListen true ["x", "y"] "boom" (by decide)).2.1,
   (claim_C7 patListen true ["x", "y"] "boom" (by decide)).2.2.2.2.2⟩

/-- C8, counterexample: the claim says removal is attempted for every
directory on both terminal paths; but the synchronous forceful-kill loop
sits inside a single `try`/`catch`, so with `tempDirectories = ["a", "b"]`
where removing `"a"` fails, a `kill` attempts only `"a"` and never
attempts `"b"` on the synchronous path. -/
theorem claim_C8_counterexample :
    "b" ∈ abEnv.tempDirectories ∧
    (run abEnv [Ev.callKill] (cfg0 7)).syncAttempts = ["a"] ∧
    "b" ∉ (run abEnv [Ev.callKill] (cfg0 7)).syncAttempts :=
  ⟨by decide, rfl, by decide⟩

/-- C8 (amended): temp-directory removal is attempted on both terminal
paths, with all errors swallowed, but with different coverage: (1) the
asynchronous normal-exit cleanup attempts every directory of
`tempDirectories`, and (2) each failure there is caught individually, so
every non-failing directory is removed regardless of other failures; (3) the
synchronous forceful-kill loop attempts every directory provided each is
already removed or does not fail (an already-removed directory is not an
error) — a failing directory's error is swallowed but aborts the remaining
removals of that call; and (4) removal failures never change the recorded
promise resolutions or exit callbacks — they never cause `launchProcess`,
`gracefullyClose` or `kill` to reject. -/
theorem claim_C8 :
    (∀ (env : LaunchEnv) (c : Cfg),
      c.cleanupStarted = true → c.cleanupSettled = false →
      (step env Ev.cleanupDone c).asyncAttempts =
        c.asyncAttempts ++ env.tempDirectories) ∧
    (∀ (env : LaunchEnv) (removed : List String) (d : String),
      d ∈ env.tempDirectories → d ∉ env.failingDirs →
      d ∈ (asyncRemoveAll env removed).1) ∧
    (∀ (env : LaunchEnv) (c : Cfg),
      (∀ d ∈ env.tempDirectories, d ∈ c.removedDirs ∨ d ∉ env.failingDirs) →
      (killProcessFn env c).syncAttempts = c.syncAttempts ++ env.tempDirectories) ∧
    (∀ (env env' : LaunchEnv) (es : List Ev) (c : Cfg),
      (run env es c).resolutions = (run env' es c).resolutions ∧
      (run env es c).onExitCalls = (run env' es c).onExitCalls) := by
  refine ⟨?_, ?_, ?_, ?_⟩
  · intro env c hs hns
    have hcond : (c.cleanupStarted = true) ∧ c.cleanupSettled = false := ⟨hs, hns⟩
    simp only [step, hcond, and_self, if_true]
    rfl
  · intro env removed d hd hf
    exact asyncRemoveAll_removes env removed d hd hf
  · intro env c hall
    have hloop := syncRemoveLoop_all env env.tempDirectories c.removedDirs hall
    unfold killProcessFn sendKillSignal
    by_cases hp : c.pid ≠ 0 ∧ c.killed = false ∧ c.processClosed = false <;>
      cases hk : env.killThrows <;>
      simp [hp, hloop.1]
  · intro env env' es c
    have h := run_obs_env_independent env env' es c
    exact ⟨congrArg Obs.resolutions h, congrArg Obs.onExitCalls h⟩

/-- C8, witness: the failure-robust async path removing `"b"` although
`"a"` fails; the sync path attempting every directory when none fails; the
async attempt list covering every directory. -/
theorem claim_C8_witness :
    ("b" ∈ (asyncRemoveAll abEnv []).1) ∧
    ((killProcessFn cdEnv (cfg0 7)).syncAttempts =
      (cfg0 7).syncAttempts ++ cdEnv.tempDirectories) ∧
    ((step abEnv Ev.cleanupDone startedCfg).asyncAttempts =
      startedCfg.asyncAttempts ++ abEnv.tempDirectories) :=
  ⟨claim_C8.2.1 abEnv [] "b" (by decide) (by decide),
   claim_C8.2.2.1 cdEnv (cfg0 7) (by decide),
   claim_C8.1 abEnv startedCfg rfl rfl⟩

end ProcessLauncher
